import Mathlib

/-!
# Verification of the LLM-APP RAG notebooks

Shallow embedding of the data model and operations of the two notebooks
`rag_arbitrary_sources.ipynb` and `rag_mlflow_documents.ipynb` (Haystack 2.x
RAG pipelines evaluated with MLflow), together with theorems settling the
specification claims.

The notebooks themselves only wire pre-built Haystack components; where a
claim depends on a component whose implementation is not part of the
repository (DocumentSplitter, DocumentWriter with DuplicatePolicy.SKIP, the
embedding retriever, mlflow.evaluate), the component is modelled from the
specification's description, and the model is marked `Modelled from the
spec:` in its doc comment.  Code that is in the repository — the
`extract_source` helpers, the pipeline connection lists, the run-input
dictionaries and the metric list — is embedded directly.
-/

namespace LlmApp

/-! ## Word-window document splitter

Modelled from the spec: the repository's `DocumentSplitter(split_by="word",
split_length=L, split_overlap=o)` is Haystack library code not present in the
repository.  The spec describes it as "fixed word-count windows with a fixed
overlap", a "deterministic, idempotent transform".  A document's cleaned text
is modelled as its list of words; the splitter emits windows of at most `L`
words, each window starting `L - o` words after the previous one, and stops
once a window reaches the end of the text (a further window would contain
only words already covered by the previous window's overlap region). -/

/-- One window pass: `splitWords L step ws` returns the word windows of `ws`,
    each of length at most `L`, consecutive windows starting `step` words
    apart.  `step = L - overlap` for overlap `o < L`. -/
def splitWords (L step : Nat) (ws : List α) : List (List α) :=
  if ws.isEmpty then []
  else if step = 0 ∨ ws.length ≤ L then [ws]
  else ws.take L :: splitWords L step (ws.drop step)
termination_by ws.length
decreasing_by
  simp only [not_or, not_le, List.isEmpty_iff] at *
  simp only [List.length_drop]
  omega

/-- Concatenate chunks after removing each chunk's leading overlap region
    (the first chunk has no predecessor, hence no overlap region). -/
def joinChunks (overlap : Nat) : List (List α) → List α
  | [] => []
  | c :: cs => c ++ (cs.map (List.drop overlap)).flatten

/-- The splitter applied to a batch of documents (each a word list), as the
    pipeline's splitter stage does: every document is split and the resulting
    chunk lists are concatenated in order. -/
def splitAll (L step : Nat) (docs : List (List α)) : List (List α) :=
  (docs.map (splitWords L step)).flatten

/-! ## Vector store writes under `DuplicatePolicy.SKIP`

Modelled from the spec: `DocumentWriter(document_store=..., policy=DuplicatePolicy.SKIP)`
is Haystack library code not present in the repository.  The spec's contract:
documents are "written to the vector store exactly once per unique content
hash, skipping duplicates".  A document's identity is its content hash, which
is injective on contents, so the model compares contents directly. -/

/-- A document as stored by the writer: its content (standing for the content
    hash that identifies it) and its embedding vector. -/
structure IngestDoc where
  content : String
  embedding : List Int
deriving DecidableEq

/-- Does the store already hold a document with this content (hash)? -/
def hasContent (store : List IngestDoc) (c : String) : Bool :=
  store.any (fun e => e.content = c)

/-- Modelled from the spec: one `DocumentWriter` write under
    `DuplicatePolicy.SKIP` — append the document unless a document with the
    same content hash is already stored. -/
def writeSkip (store : List IngestDoc) (d : IngestDoc) : List IngestDoc :=
  if hasContent store d.content then store else store ++ [d]

/-- Writing a batch of documents, in order, under the skip policy (the
    writer stage of the indexing pipelines). -/
def writeAllSkip (store : List IngestDoc) (ds : List IngestDoc) : List IngestDoc :=
  ds.foldl writeSkip store

/-- How many stored documents carry content `c`. -/
def contentCount (store : List IngestDoc) (c : String) : Nat :=
  store.countP (fun e => e.content = c)

/-- The store holds no two documents with the same content hash. -/
def NoDupContents (store : List IngestDoc) : Prop :=
  store.Pairwise (fun a b => a.content ≠ b.content)

/-! ## The query (RAG) pipeline

The component graph is embedded from the `create_rag_pipeline` functions of
both notebooks (their connection lists are identical):
`text_embedder.embedding → retriever.query_embedding`,
`retriever → prompt_builder.documents`, `prompt_builder → llm`,
`llm.replies → answer_builder.replies`, `llm.meta → answer_builder.meta`,
`retriever → answer_builder.documents`.  The embedder and the LLM are
external services, passed as opaque functions; the retriever is modelled
from the spec ("retrieve the top-k nearest documents from the vector store
using the store's similarity metric", the store being "a read-only structure
during querying"). -/

/-- A retrievable document: content, metadata mapping and embedding. -/
structure Doc where
  content : String
  meta : List (String × String)
  embedding : List Int
deriving DecidableEq

/-- Similarity score of a query embedding against a document embedding
    (dot product, over integer coordinates). -/
def dot (u v : List Int) : Int :=
  (List.zipWith (· * ·) u v).foldl (· + ·) 0

/-- Stable insertion into a list sorted by descending score. -/
def insertDesc (x : Int × Doc) : List (Int × Doc) → List (Int × Doc)
  | [] => [x]
  | y :: ys => if y.1 < x.1 then x :: y :: ys else y :: insertDesc x ys

/-- Stable sort by descending score. -/
def sortDesc (l : List (Int × Doc)) : List (Int × Doc) :=
  l.foldr insertDesc []

/-- Modelled from the spec: the embedding retriever
    (`QdrantEmbeddingRetriever` / `InMemoryEmbeddingRetriever`, library code
    not in the repository) scores every stored document against the query
    embedding and returns the top-k by descending similarity. -/
def retrieveTopK (k : Nat) (store : List Doc) (q : List Int) : List Doc :=
  ((sortDesc (store.map (fun d => (dot q d.embedding, d)))).take k).map (fun p => p.2)

/-- The retriever component's run: it reads the store and leaves it as it
    found it (the spec treats the store as read-only during querying). -/
def retrieverRun (k : Nat) (store : List Doc) (q : List Int) :
    List Doc × List Doc :=
  (retrieveTopK k store q, store)

/-- Haystack's `GeneratedAnswer`, as produced by `AnswerBuilder`: the reply
    text, the originating query, the documents used and the model metadata
    (metadata kept as an opaque type `M`). -/
structure GeneratedAnswer (M : Type) where
  data : String
  query : String
  documents : List Doc
  meta : M

/-- Modelled from the spec: `AnswerBuilder` packages each raw model reply
    with the query, the documents it received and the model metadata. -/
def answerBuilderRun (query : String) (replies : List String) (meta : M)
    (documents : List Doc) : List (GeneratedAnswer M) :=
  replies.map (fun r => { data := r, query := query, documents := documents, meta := meta })

/-- The prompt template of the notebooks, rendered: the fixed instruction
    text, the question, and the contents of the retrieved documents. -/
def buildPrompt (question : String) (docs : List Doc) : String :=
  "Answer the following question given the documents. "
    ++ "If the answer is not contained within the documents reply with 'no_answer' "
    ++ "Query: " ++ question ++ " Documents: "
    ++ String.join (docs.map (fun d => d.content))

/-- One run of the query pipeline, following the connection graph of
    `create_rag_pipeline`: embed the question, retrieve against the store,
    build the prompt, call the generator (an opaque function returning the
    replies and their metadata), and build the answers.  The store is
    threaded through so that its final state is part of the result. -/
def runRagPipeline (embed : String → List Int) (generate : String → List String × M)
    (k : Nat) (store : List Doc) (question : String) :
    List (GeneratedAnswer M) × List Doc :=
  let emb := embed question
  let docs := (retrieverRun k store emb).1
  let store1 := (retrieverRun k store emb).2
  let out := generate (buildPrompt question docs)
  (answerBuilderRun question out.1 out.2 docs, store1)

/-! ## Source extraction from retrieved-document metadata

Embedded from the repository's own code: `extract_source` in
`rag_arbitrary_sources.ipynb` (url, then file_path, else KeyError) and in
`rag_mlflow_documents.ipynb` (url, else KeyError).  Metadata is an
association list; `KeyError` becomes `Except.error` carrying the message. -/

/-- `extract_source` of `rag_arbitrary_sources.ipynb`:
    `if "url" in doc.meta: return doc.meta["url"]
     elif "file_path" in doc.meta: return doc.meta["file_path"]
     else: raise KeyError(...)`. -/
def extract_source (meta : List (String × String)) : Except String String :=
  match meta.lookup "url" with
  | some u => Except.ok u
  | none =>
    match meta.lookup "file_path" with
    | some f => Except.ok f
    | none => Except.error "Neither 'url' nor 'file_path' exists in the metadata"

/-- `extract_source` of `rag_mlflow_documents.ipynb`:
    `if "url" in doc.meta: return doc.meta["url"] else: raise KeyError(...)`. -/
def extract_source_mlflow (meta : List (String × String)) : Except String String :=
  match meta.lookup "url" with
  | some u => Except.ok u
  | none => Except.error "'url' key does not exist in the metadata"

/-! ## Pipeline graphs

The three pipeline graphs the notebooks construct, embedded from their
`add_component`/`connect` calls and `run` input dictionaries.  Where the
notebooks connect whole components ("cleaner", "splitter", ...), Haystack
resolves the unique matching ports; the resolved port names are used here
(each of those components has a single `documents` input and output). -/

/-- A port-to-port connection: ((source node, source port),
    (target node, target port)). -/
abbrev Conn := (String × String) × (String × String)

/-- Connections of the indexing pipeline of `rag_arbitrary_sources.ipynb`. -/
def indexingArbitraryConns : List Conn :=
  [(("fetcher", "streams"), ("html_converter", "sources")),
   (("html_converter", "documents"), ("document_joiner", "documents")),
   (("pdf_converter", "documents"), ("document_joiner", "documents")),
   (("document_joiner", "documents"), ("cleaner", "documents")),
   (("cleaner", "documents"), ("splitter", "documents")),
   (("splitter", "documents"), ("document_embedder", "documents")),
   (("document_embedder", "documents"), ("writer", "documents"))]

/-- Input ports fed directly by the `indexing_pipeline.run(data=...)` call of
    `rag_arbitrary_sources.ipynb`. -/
def indexingArbitraryRunInputs : List (String × String) :=
  [("fetcher", "urls"), ("pdf_converter", "sources")]

/-- Connections of the RAG pipeline (identical in both notebooks). -/
def ragConns : List Conn :=
  [(("text_embedder", "embedding"), ("retriever", "query_embedding")),
   (("retriever", "documents"), ("prompt_builder", "documents")),
   (("prompt_builder", "prompt"), ("llm", "prompt")),
   (("llm", "replies"), ("answer_builder", "replies")),
   (("llm", "meta"), ("answer_builder", "meta")),
   (("retriever", "documents"), ("answer_builder", "documents"))]

/-- Input ports fed directly by `rag_pipeline.run(...)`. -/
def ragRunInputs : List (String × String) :=
  [("text_embedder", "text"), ("prompt_builder", "question"), ("answer_builder", "query")]

/-- Connections of the indexing pipeline of `rag_mlflow_documents.ipynb`. -/
def indexingMlflowConns : List Conn :=
  [(("fetcher", "streams"), ("html_converter", "sources")),
   (("html_converter", "documents"), ("cleaner", "documents")),
   (("cleaner", "documents"), ("splitter", "documents")),
   (("splitter", "documents"), ("document_embedder", "documents")),
   (("document_embedder", "documents"), ("writer", "documents"))]

/-- Input ports fed directly by `indexing_pipeline.run(data=...)` of
    `rag_mlflow_documents.ipynb`. -/
def indexingMlflowRunInputs : List (String × String) :=
  [("fetcher", "urls")]

/-- Node-level edges of a connection list. -/
def edgeList (cs : List Conn) : List (String × String) :=
  cs.map (fun c => (c.1.1, c.2.1))

/-- All nodes occurring in a connection list. -/
def nodesOf (cs : List Conn) : List String :=
  cs.map (fun c => c.1.1) ++ cs.map (fun c => c.2.1)

/-- Successors of a node in the node-level graph. -/
def succsOf (cs : List Conn) (v : String) : List String :=
  ((edgeList cs).filter (fun e => e.1 = v)).map (fun e => e.2)

/-- All nodes reachable from `v` in exactly `n` steps (with multiplicity). -/
def stepsFrom (cs : List Conn) : Nat → String → List String
  | 0, v => [v]
  | n + 1, v => ((stepsFrom cs n v).map (succsOf cs)).flatten

/-- A cycle exists iff some node reaches itself in between 1 and `|nodes|`
    steps. -/
def hasCycle (cs : List Conn) : Bool :=
  (nodesOf cs).any (fun v =>
    (List.range (nodesOf cs).length).any (fun n => (stepsFrom cs (n + 1) v).contains v))

/-- How many producers feed the input port `p`: connected producers plus the
    pipeline `run` data that supplies `p` directly. -/
def producerCount (cs : List Conn) (runIns : List (String × String))
    (p : String × String) : Nat :=
  (cs.filter (fun c => c.2 = p)).length + (runIns.filter (fun q => q = p)).length

/-- The input ports that receive data in a pipeline: connection targets and
    run-supplied ports (the ports the execution requires to be fed). -/
def targetPorts (cs : List Conn) (runIns : List (String × String)) :
    List (String × String) :=
  cs.map (fun c => c.2) ++ runIns

/-- Is the node a non-source node (has at least one incoming connection)? -/
def isNonSource (cs : List Conn) (v : String) : Bool :=
  cs.any (fun c => c.2.1 = v)

/-! ## Evaluation tables

Modelled from the spec: `mlflow.evaluate` (library code not in the
repository) "runs each [question] through the query pipeline ... and
computes ranking metrics (precision@k, recall@k, normalized discounted
cumulative gain@k) ... for k ∈ {1,2,3}", producing a table with one row per
question; the notebooks request exactly the metrics
`precision_at_k/recall_at_k/ndcg_at_k` for `k = 1, 2, 3`. -/

/-- The metric column names for a list of cut-offs `ks`: three ranking
    metrics per cut-off, exactly as listed in the notebook's
    `extra_metrics`. -/
def metricNames (ks : List Nat) : List String :=
  (ks.map (fun k =>
    ["precision_at_" ++ toString k,
     "recall_at_" ++ toString k,
     "ndcg_at_" ++ toString k])).flatten

/-- An evaluation results table: the metric column names and one row per
    question, each row carrying the question and its metric scores. -/
structure EvalTable (S : Type) where
  metricColumns : List String
  rows : List (String × List S)

/-- Modelled from the spec: the evaluation run builds a table with one row
    per evaluated question and one metric column per requested metric;
    `score q m` is the (externally computed) value of metric `m` on
    question `q`. -/
def buildEvalTable (score : String → String → S) (questions : List String)
    (ks : List Nat) : EvalTable S :=
  { metricColumns := metricNames ks,
    rows := questions.map (fun q => (q, (metricNames ks).map (fun m => score q m))) }

/-! ## Helper lemmas -/

theorem splitWords_nil (L step : Nat) : splitWords L step ([] : List α) = [] := by
  simp [splitWords]

theorem splitWords_of_le (L step : Nat) (ws : List α) (hne : ws ≠ [])
    (hle : ws.length ≤ L) : splitWords L step ws = [ws] := by
  rw [splitWords]
  simp [hne, hle]

theorem splitWords_of_lt (L step : Nat) (ws : List α) (hstep : step ≠ 0)
    (hlt : L < ws.length) :
    splitWords L step ws = ws.take L :: splitWords L step (ws.drop step) := by
  rw [splitWords]
  have hne : ¬ ws.isEmpty := by
    simp only [List.isEmpty_iff]
    intro h; subst h; simp at hlt
  simp only [hne, if_false]
  have : ¬ (step = 0 ∨ ws.length ≤ L) := by
    push_neg
    exact ⟨hstep, hlt⟩
  simp [this]

/-- Dropping the overlap from every chunk and concatenating yields the source
    text with its first `overlap` words removed. -/
theorem join_map_drop_splitWords (L overlap : Nat) (h : overlap < L) (ws : List α) :
    ((splitWords L (L - overlap) ws).map (List.drop overlap)).flatten = ws.drop overlap := by
  have key : ∀ n (ws : List α), ws.length = n →
      ((splitWords L (L - overlap) ws).map (List.drop overlap)).flatten = ws.drop overlap := by
    intro n
    induction n using Nat.strong_induction_on with
    | _ n ih =>
      intro ws hn
      by_cases hne : ws = []
      · subst hne
        simp [splitWords_nil]
      by_cases hle : ws.length ≤ L
      · rw [splitWords_of_le L (L - overlap) ws hne hle]
        simp
      · push_neg at hle
        have hstep : L - overlap ≠ 0 := by omega
        rw [splitWords_of_lt L (L - overlap) ws hstep hle, List.map_cons, List.flatten_cons]
        have hlt : (ws.drop (L - overlap)).length < n := by
          simp only [List.length_drop]
          omega
        rw [ih _ hlt _ rfl, List.drop_drop]
        have hL : L - overlap + overlap = L := by omega
        rw [hL]
        have hlenTake : overlap ≤ (ws.take L).length := by
          simp only [List.length_take]
          omega
        rw [← List.drop_append_of_le_length hlenTake, List.take_append_drop]
  exact key ws.length ws rfl

/-- Every chunk emitted by the splitter is nonempty and holds at most `L`
    words (here `step = L - overlap` with `overlap < L`, as in the
    notebooks, where `overlap = 16 < split_length`). -/
theorem mem_splitWords (L overlap : Nat) (h : overlap < L) (ws : List α)
    (c : List α) (hc : c ∈ splitWords L (L - overlap) ws) :
    c ≠ [] ∧ c.length ≤ L := by
  have key : ∀ n (ws : List α), ws.length = n →
      ∀ c ∈ splitWords L (L - overlap) ws, c ≠ [] ∧ c.length ≤ L := by
    intro n
    induction n using Nat.strong_induction_on with
    | _ n ih =>
      intro ws hn c hc
      by_cases hne : ws = []
      · subst hne
        simp [splitWords_nil] at hc
      by_cases hle : ws.length ≤ L
      · rw [splitWords_of_le L (L - overlap) ws hne hle] at hc
        simp only [List.mem_singleton] at hc
        subst hc
        exact ⟨hne, hle⟩
      · push_neg at hle
        have hstep : L - overlap ≠ 0 := by omega
        rw [splitWords_of_lt L (L - overlap) ws hstep hle] at hc
        rcases List.mem_cons.mp hc with rfl | hc'
        · constructor
          · have : (ws.take L).length = L := by
              simp only [List.length_take]
              omega
            intro hcon
            rw [hcon] at this
            simp at this
            omega
          · simp [List.length_take]
        · have hlt : (ws.drop (L - overlap)).length < n := by
            simp only [List.length_drop]
            omega
          exact ih _ hlt _ rfl c hc'
  exact key ws.length ws rfl c hc

/-- A text that already fits in one window is returned as its own single
    chunk. -/
theorem splitWords_eq_self (L step : Nat) (c : List α) (hne : c ≠ [])
    (hle : c.length ≤ L) : splitWords L step c = [c] :=
  splitWords_of_le L step c hne hle

/-- If every member of `cs` is split to itself alone, splitting the whole
    batch reproduces `cs`. -/
theorem flatten_map_of_fixed (f : List α → List (List α)) (cs : List (List α))
    (hfix : ∀ c ∈ cs, f c = [c]) : (cs.map f).flatten = cs := by
  induction cs with
  | nil => simp
  | cons c cs ihcs =>
    rw [List.map_cons, List.flatten_cons, hfix c (List.mem_cons_self c cs),
      ihcs (fun d hd => hfix d (List.mem_cons_of_mem c hd))]
    rfl

/-- Re-splitting the splitter's output changes nothing: each emitted chunk
    fits in one window, so it is re-emitted verbatim. -/
theorem splitAll_splitWords (L overlap : Nat) (h : overlap < L) (ws : List α) :
    splitAll L (L - overlap) (splitWords L (L - overlap) ws)
      = splitWords L (L - overlap) ws := by
  unfold splitAll
  refine flatten_map_of_fixed _ _ (fun c hc => ?_)
  obtain ⟨hne, hle⟩ := mem_splitWords L overlap h ws c hc
  exact splitWords_eq_self L (L - overlap) c hne hle

theorem hasContent_writeSkip_mono (store : List IngestDoc) (d : IngestDoc)
    (c : String) (h : hasContent store c = true) :
    hasContent (writeSkip store d) c = true := by
  unfold writeSkip
  by_cases hd : hasContent store d.content
  · simp [hd, h]
  · rw [if_neg hd]
    unfold hasContent at h ⊢
    rw [List.any_append, h]
    rfl

theorem hasContent_writeAllSkip_mono (ds : List IngestDoc) :
    ∀ (store : List IngestDoc) (c : String), hasContent store c = true →
      hasContent (writeAllSkip store ds) c = true := by
  induction ds with
  | nil => intro store c h; exact h
  | cons d ds ihds =>
    intro store c h
    exact ihds (writeSkip store d) c (hasContent_writeSkip_mono store d c h)

theorem hasContent_writeSkip_self (store : List IngestDoc) (d : IngestDoc) :
    hasContent (writeSkip store d) d.content = true := by
  unfold writeSkip
  by_cases hd : hasContent store d.content
  · simp [hd]
  · rw [if_neg hd]
    unfold hasContent
    rw [List.any_append]
    simp

theorem hasContent_writeAllSkip (ds : List IngestDoc) :
    ∀ (store : List IngestDoc), ∀ d ∈ ds,
      hasContent (writeAllSkip store ds) d.content = true := by
  induction ds with
  | nil => intro store d hd; simp at hd
  | cons e ds ihds =>
    intro store d hd
    rcases List.mem_cons.mp hd with rfl | hd'
    · exact hasContent_writeAllSkip_mono ds (writeSkip store d) d.content
        (hasContent_writeSkip_self store d)
    · exact ihds (writeSkip store e) d hd'

theorem writeSkip_of_hasContent (store : List IngestDoc) (d : IngestDoc)
    (h : hasContent store d.content = true) : writeSkip store d = store := by
  unfold writeSkip
  simp [h]

theorem writeAllSkip_of_all_present (ds : List IngestDoc) :
    ∀ (store : List IngestDoc), (∀ d ∈ ds, hasContent store d.content = true) →
      writeAllSkip store ds = store := by
  induction ds with
  | nil => intro store _; rfl
  | cons d ds ihds =>
    intro store h
    have hd : writeSkip store d = store :=
      writeSkip_of_hasContent store d (h d (List.mem_cons_self d ds))
    show writeAllSkip (writeSkip store d) ds = store
    rw [hd]
    exact ihds store (fun e he => h e (List.mem_cons_of_mem d he))

theorem noDupContents_writeSkip (store : List IngestDoc) (d : IngestDoc)
    (h : NoDupContents store) : NoDupContents (writeSkip store d) := by
  unfold writeSkip
  by_cases hd : hasContent store d.content
  · simpa [hd]
  · rw [if_neg hd]
    unfold NoDupContents at h ⊢
    rw [List.pairwise_append]
    refine ⟨h, List.pairwise_singleton _ _, ?_⟩
    intro a ha b hb
    rw [List.mem_singleton] at hb
    subst hb
    intro hcon
    apply hd
    unfold hasContent
    rw [List.any_eq_true]
    exact ⟨a, ha, by simp [hcon]⟩

theorem noDupContents_nil : NoDupContents [] := List.Pairwise.nil

theorem noDupContents_writeAllSkip (ds : List IngestDoc) :
    ∀ (store : List IngestDoc), NoDupContents store →
      NoDupContents (writeAllSkip store ds) := by
  induction ds with
  | nil => intro store h; exact h
  | cons d ds ihds =>
    intro store h
    exact ihds (writeSkip store d) (noDupContents_writeSkip store d h)

theorem contentCount_eq_one (t : List IngestDoc) (c : String)
    (hnd : NoDupContents t) (hmem : hasContent t c = true) :
    contentCount t c = 1 := by
  induction t with
  | nil => simp [hasContent] at hmem
  | cons x t iht =>
    unfold NoDupContents at hnd
    rw [List.pairwise_cons] at hnd
    by_cases hx : x.content = c
    · have hzero : contentCount t c = 0 := by
        unfold contentCount
        rw [List.countP_eq_zero]
        intro e he
        simp only [decide_eq_true_eq]
        intro hec
        exact hnd.1 e he (hx.trans hec.symm)
      unfold contentCount at hzero ⊢
      rw [List.countP_cons, hzero]
      simp [hx]
    · have hmem' : hasContent t c = true := by
        unfold hasContent at hmem ⊢
        rw [List.any_cons] at hmem
        simpa [hx] using hmem
      have h1 := iht hnd.2 hmem'
      unfold contentCount at h1 ⊢
      rw [List.countP_cons]
      simp [hx, h1]

/-- Idempotence at the batch level. -/
theorem splitAll_idem (L overlap : Nat) (h : overlap < L) (docs : List (List α)) :
    splitAll L (L - overlap) (splitAll L (L - overlap) docs)
      = splitAll L (L - overlap) docs := by
  unfold splitAll
  refine flatten_map_of_fixed _ _ (fun c hc => ?_)
  rw [List.mem_flatten] at hc
  obtain ⟨cs, hcs, hmem⟩ := hc
  rw [List.mem_map] at hcs
  obtain ⟨doc, _, rfl⟩ := hcs
  obtain ⟨hne, hle⟩ := mem_splitWords L overlap h doc c hmem
  exact splitWords_eq_self L (L - overlap) c hne hle

/-- The fields of the answers built by `answerBuilderRun`: the data list is
    the replies list, and query, documents and metadata are those the
    builder received, once per reply. -/
theorem answerBuilderRun_fields (query : String) (replies : List String)
    (meta : M) (docs : List Doc) :
    ((answerBuilderRun query replies meta docs).map (fun a => a.data) = replies) ∧
    ((answerBuilderRun query replies meta docs).map (fun a => a.documents)
      = List.replicate replies.length docs) ∧
    ((answerBuilderRun query replies meta docs).map (fun a => a.meta)
      = List.replicate replies.length meta) ∧
    ((answerBuilderRun query replies meta docs).map (fun a => a.query)
      = List.replicate replies.length query) := by
  unfold answerBuilderRun
  refine ⟨?_, ?_, ?_, ?_⟩ <;>
    (induction replies with
     | nil => rfl
     | cons r rs ih => simp_all [List.replicate_succ])

/-- The metric list requested by the notebook contributes three columns per
    cut-off. -/
theorem metricNames_length (ks : List Nat) : (metricNames ks).length = 3 * ks.length := by
  induction ks with
  | nil => rfl
  | cons k ks ih =>
    unfold metricNames at ih ⊢
    rw [List.map_cons, List.flatten_cons, List.length_append, ih]
    simp [List.length_cons]
    omega

/-! ## Claim theorems -/

/-- Claim C1: for every document set already ingested into the vector store,
    re-running the ingestion under `DuplicatePolicy.SKIP` on an identical
    document set leaves the store unchanged (in particular its document
    count), and each unique document content is stored exactly once. -/
theorem claim_c1_skip_reingest (store ds : List IngestDoc) (h : NoDupContents store) :
    writeAllSkip (writeAllSkip store ds) ds = writeAllSkip store ds ∧
    (writeAllSkip (writeAllSkip store ds) ds).length = (writeAllSkip store ds).length ∧
    ∀ d ∈ ds, contentCount (writeAllSkip store ds) d.content = 1 := by
  have hall : ∀ d ∈ ds, hasContent (writeAllSkip store ds) d.content = true :=
    hasContent_writeAllSkip ds store
  have heq : writeAllSkip (writeAllSkip store ds) ds = writeAllSkip store ds :=
    writeAllSkip_of_all_present ds _ hall
  exact ⟨heq, by rw [heq], fun d hd =>
    contentCount_eq_one _ _ (noDupContents_writeAllSkip ds store h) (hall d hd)⟩

/-- Concrete run of `claim_c1_skip_reingest`: an empty store, a batch with a
    duplicated content, re-ingestion is a no-op and the duplicated content is
    stored once. -/
theorem claim_c1_skip_reingest_witness :
    writeAllSkip (writeAllSkip [] [⟨"a", [1]⟩, ⟨"a", [1]⟩, ⟨"b", [2]⟩])
        [⟨"a", [1]⟩, ⟨"a", [1]⟩, ⟨"b", [2]⟩]
      = writeAllSkip [] [⟨"a", [1]⟩, ⟨"a", [1]⟩, ⟨"b", [2]⟩] ∧
    contentCount (writeAllSkip [] [⟨"a", [1]⟩, ⟨"a", [1]⟩, ⟨"b", [2]⟩]) "a" = 1 ∧
    writeAllSkip [] [⟨"a", [1]⟩, ⟨"a", [1]⟩, ⟨"b", [2]⟩] = [⟨"a", [1]⟩, ⟨"b", [2]⟩] :=
  ⟨(claim_c1_skip_reingest [] [⟨"a", [1]⟩, ⟨"a", [1]⟩, ⟨"b", [2]⟩] noDupContents_nil).1,
   (claim_c1_skip_reingest [] [⟨"a", [1]⟩, ⟨"a", [1]⟩, ⟨"b", [2]⟩] noDupContents_nil).2.2
     ⟨"a", [1]⟩ (by decide),
   by decide⟩

/-- Claim C2: for every cleaned source document (a word list), concatenating
    the word-window chunks with each chunk's leading overlap region removed
    reconstructs the source exactly, and no chunk exceeds the configured
    length. -/
theorem claim_c2_chunks_reconstruct (L overlap : Nat) (ws : List String)
    (h : overlap < L) :
    joinChunks overlap (splitWords L (L - overlap) ws) = ws ∧
    ∀ c ∈ splitWords L (L - overlap) ws, c.length ≤ L := by
  constructor
  · by_cases hne : ws = []
    · subst hne
      simp [splitWords_nil, joinChunks]
    by_cases hle : ws.length ≤ L
    · rw [splitWords_of_le L (L - overlap) ws hne hle]
      simp [joinChunks]
    · push_neg at hle
      have hstep : L - overlap ≠ 0 := by omega
      rw [splitWords_of_lt L (L - overlap) ws hstep hle]
      show ws.take L ++ _ = ws
      rw [join_map_drop_splitWords L overlap h (ws.drop (L - overlap)), List.drop_drop]
      have hL : L - overlap + overlap = L := by omega
      rw [hL, List.take_append_drop]
  · exact fun c hc => (mem_splitWords L overlap h ws c hc).2

/-- Concrete run of `claim_c2_chunks_reconstruct`: window 3, overlap 1 on a
    five-word text gives chunks `[a b c]` and `[c d e]`, which rejoin to the
    text. -/
theorem claim_c2_chunks_reconstruct_witness :
    joinChunks 1 (splitWords 3 (3 - 1) ["a", "b", "c", "d", "e"])
      = ["a", "b", "c", "d", "e"] ∧
    splitWords 3 (3 - 1) ["a", "b", "c", "d", "e"]
      = [["a", "b", "c"], ["c", "d", "e"]] :=
  ⟨(claim_c2_chunks_reconstruct 3 1 ["a", "b", "c", "d", "e"] (by decide)).1,
   by simp [splitWords]⟩

/-- Claim C3: extracting the source of a retrieved document returns the
    expected metadata field when present and fails with the notebook's
    `KeyError` message when absent, with no fallback value — for both
    notebooks' `extract_source` helpers. -/
theorem claim_c3_extract_source_errors (meta : List (String × String)) :
    (meta.lookup "url" = none → meta.lookup "file_path" = none →
      extract_source meta
        = Except.error "Neither 'url' nor 'file_path' exists in the metadata") ∧
    (∀ u, meta.lookup "url" = some u → extract_source meta = Except.ok u) ∧
    (∀ f, meta.lookup "url" = none → meta.lookup "file_path" = some f →
      extract_source meta = Except.ok f) ∧
    (meta.lookup "url" = none →
      extract_source_mlflow meta
        = Except.error "'url' key does not exist in the metadata") ∧
    (∀ u, meta.lookup "url" = some u → extract_source_mlflow meta = Except.ok u) := by
  refine ⟨fun h1 h2 => ?_, fun u hu => ?_, fun f h1 hf => ?_, fun h1 => ?_, fun u hu => ?_⟩
  · unfold extract_source
    rw [h1, h2]
  · unfold extract_source
    rw [hu]
  · unfold extract_source
    rw [h1, hf]
  · unfold extract_source_mlflow
    rw [h1]
  · unfold extract_source_mlflow
    rw [hu]

/-- Concrete runs of `claim_c3_extract_source_errors` on metadata with and
    without the source fields. -/
theorem claim_c3_extract_source_errors_witness :
    extract_source []
      = Except.error "Neither 'url' nor 'file_path' exists in the metadata" ∧
    extract_source [("url", "u")] = Except.ok "u" ∧
    extract_source [("file_path", "p")] = Except.ok "p" ∧
    extract_source_mlflow []
      = Except.error "'url' key does not exist in the metadata" ∧
    extract_source_mlflow [("url", "u")] = Except.ok "u" :=
  ⟨(claim_c3_extract_source_errors []).1 rfl rfl,
   (claim_c3_extract_source_errors [("url", "u")]).2.1 "u" rfl,
   (claim_c3_extract_source_errors [("file_path", "p")]).2.2.1 "p" rfl rfl,
   (claim_c3_extract_source_errors []).2.2.2.1 rfl,
   (claim_c3_extract_source_errors [("url", "u")]).2.2.2.2 "u" rfl⟩

/-- Claim C4: the word-window splitter is deterministic (equal inputs give
    equal chunk batches) and idempotent (re-splitting its own output yields
    it unchanged). -/
theorem claim_c4_split_deterministic_idempotent (L overlap : Nat)
    (docs1 docs2 : List (List String)) (h : overlap < L) (heq : docs1 = docs2) :
    splitAll L (L - overlap) docs1 = splitAll L (L - overlap) docs2 ∧
    splitAll L (L - overlap) (splitAll L (L - overlap) docs1)
      = splitAll L (L - overlap) docs1 :=
  ⟨heq ▸ rfl, splitAll_idem L overlap h docs1⟩

/-- Concrete run of `claim_c4_split_deterministic_idempotent`: window 3,
    overlap 1 on a five-word document; re-splitting the two chunks returns
    them unchanged. -/
theorem claim_c4_split_deterministic_idempotent_witness :
    splitAll 3 (3 - 1) (splitAll 3 (3 - 1) [["a", "b", "c", "d", "e"]])
      = splitAll 3 (3 - 1) [["a", "b", "c", "d", "e"]] ∧
    splitAll 3 (3 - 1) [["a", "b", "c", "d", "e"]]
      = [["a", "b", "c"], ["c", "d", "e"]] :=
  ⟨(claim_c4_split_deterministic_idempotent 3 1 [["a", "b", "c", "d", "e"]]
      [["a", "b", "c", "d", "e"]] (by decide) rfl).2,
   by simp [splitAll, splitWords]⟩

/-- Claim C5: the query pipeline's final answers package the raw model
    replies together with exactly the documents returned by the retriever
    for the question (the same documents the prompt was built from) and the
    model's metadata. -/
theorem claim_c5_answer_packaging (embed : String → List Int)
    (generate : String → List String × M) (k : Nat) (store : List Doc)
    (question : String) :
    ((runRagPipeline embed generate k store question).1.map (fun a => a.data)
      = (generate (buildPrompt question (retrieveTopK k store (embed question)))).1) ∧
    ((runRagPipeline embed generate k store question).1.map (fun a => a.documents)
      = List.replicate
          (generate (buildPrompt question (retrieveTopK k store (embed question)))).1.length
          (retrieveTopK k store (embed question))) ∧
    ((runRagPipeline embed generate k store question).1.map (fun a => a.meta)
      = List.replicate
          (generate (buildPrompt question (retrieveTopK k store (embed question)))).1.length
          (generate (buildPrompt question (retrieveTopK k store (embed question)))).2) ∧
    ((runRagPipeline embed generate k store question).1.map (fun a => a.query)
      = List.replicate
          (generate (buildPrompt question (retrieveTopK k store (embed question)))).1.length
          question) := by
  have hrun : (runRagPipeline embed generate k store question).1
      = answerBuilderRun question
          (generate (buildPrompt question (retrieveTopK k store (embed question)))).1
          (generate (buildPrompt question (retrieveTopK k store (embed question)))).2
          (retrieveTopK k store (embed question)) := rfl
  rw [hrun]
  exact answerBuilderRun_fields question _ _ _

/-- Claim C6: retrieval is deterministic — the same question asked against
    an unchanged vector store yields the identical ranked document list,
    both at the retriever and in the final answers. -/
theorem claim_c6_retrieval_deterministic (embed : String → List Int)
    (generate : String → List String × M) (k : Nat)
    (store1 store2 : List Doc) (q1 q2 : String)
    (hs : store1 = store2) (hq : q1 = q2) :
    retrieveTopK k store1 (embed q1) = retrieveTopK k store2 (embed q2) ∧
    (runRagPipeline embed generate k store1 q1).1.map (fun a => a.documents)
      = (runRagPipeline embed generate k store2 q2).1.map (fun a => a.documents) := by
  subst hs
  subst hq
  exact ⟨rfl, rfl⟩

/-- Concrete run of `claim_c6_retrieval_deterministic` on a two-document
    store. -/
theorem claim_c6_retrieval_deterministic_witness :
    retrieveTopK 1 [⟨"d1", [], [1, 0]⟩, ⟨"d2", [], [0, 1]⟩] ((fun _ => [1, 2]) "q")
      = retrieveTopK 1 [⟨"d1", [], [1, 0]⟩, ⟨"d2", [], [0, 1]⟩] ((fun _ => [1, 2]) "q") ∧
    retrieveTopK 1 [⟨"d1", [], [1, 0]⟩, ⟨"d2", [], [0, 1]⟩] [1, 2]
      = [⟨"d2", [], [0, 1]⟩] :=
  ⟨(claim_c6_retrieval_deterministic (fun _ => [1, 2])
      (fun p => ([p], 0)) 1
      [⟨"d1", [], [1, 0]⟩, ⟨"d2", [], [0, 1]⟩]
      [⟨"d1", [], [1, 0]⟩, ⟨"d2", [], [0, 1]⟩] "q" "q" rfl rfl).1,
   by decide⟩

/-- Claim C7: running the query pipeline never modifies the vector store —
    the store after a query equals the store before it. -/
theorem claim_c7_query_preserves_store (embed : String → List Int)
    (generate : String → List String × M) (k : Nat) (store : List Doc)
    (question : String) :
    (runRagPipeline embed generate k store question).2 = store := rfl

/-- Claim C8, counterexample: in the indexing pipeline of
    `rag_arbitrary_sources.ipynb` the joiner's `documents` input port — a
    required input of a non-source node — has two connected producers
    (`html_converter` and `pdf_converter`), so "exactly one connected
    producer" fails. -/
theorem claim_c8_exactly_one_producer_counterexample :
    producerCount indexingArbitraryConns indexingArbitraryRunInputs
      ("document_joiner", "documents") = 2 ∧
    isNonSource indexingArbitraryConns "document_joiner" = true ∧
    ((targetPorts indexingArbitraryConns indexingArbitraryRunInputs).all
      (fun p => producerCount indexingArbitraryConns indexingArbitraryRunInputs p == 1))
      = false := by
  refine ⟨by decide, by decide, by decide⟩

/-- Claim C8 as amended: all three pipeline graphs are acyclic, and every
    fed input port has exactly one producer (counting run-supplied inputs),
    except the joiner's variadic fan-in port `document_joiner.documents` in
    the arbitrary-sources indexing pipeline, which has exactly two connected
    producers. -/
theorem claim_c8_amended_graph_invariant :
    hasCycle indexingArbitraryConns = false ∧
    hasCycle ragConns = false ∧
    hasCycle indexingMlflowConns = false ∧
    ((targetPorts indexingArbitraryConns indexingArbitraryRunInputs).all
      (fun p => producerCount indexingArbitraryConns indexingArbitraryRunInputs p == 1
        || p == ("document_joiner", "documents"))) = true ∧
    producerCount indexingArbitraryConns indexingArbitraryRunInputs
      ("document_joiner", "documents") = 2 ∧
    ((targetPorts ragConns ragRunInputs).all
      (fun p => producerCount ragConns ragRunInputs p == 1)) = true ∧
    ((targetPorts indexingMlflowConns indexingMlflowRunInputs).all
      (fun p => producerCount indexingMlflowConns indexingMlflowRunInputs p == 1)) = true := by
  refine ⟨by decide, by decide, by decide, by decide, by decide, by decide, by decide⟩

/-- Claim C9: a batch evaluation over `n` questions with cut-offs
    `ks = [1, 2, 3]` produces a table with exactly `n` rows and
    `3 * |ks|` metric columns (and every row carries one score per metric
    column). -/
theorem claim_c9_eval_table_shape (score : String → String → S)
    (questions : List String) (ks : List Nat) :
    (buildEvalTable score questions ks).rows.length = questions.length ∧
    (buildEvalTable score questions ks).metricColumns.length = 3 * ks.length ∧
    (buildEvalTable score questions ks).rows.map (fun r => r.2.length)
      = List.replicate questions.length (3 * ks.length) := by
  refine ⟨by simp [buildEvalTable], ?_, ?_⟩
  · show (metricNames ks).length = 3 * ks.length
    exact metricNames_length ks
  · unfold buildEvalTable
    induction questions with
    | nil => rfl
    | cons q qs ih =>
      simp_all [List.replicate_succ, metricNames_length ks]

/-- Claim C10: when a retrieved document's metadata carries both a `url`
    and a `file_path`, source extraction returns the `url` value; the
    `file_path` is returned only when no `url` key is present. -/
theorem claim_c10_url_precedence (meta : List (String × String)) (u f : String) :
    (meta.lookup "url" = some u → meta.lookup "file_path" = some f →
      extract_source meta = Except.ok u) ∧
    (meta.lookup "url" = none → meta.lookup "file_path" = some f →
      extract_source meta = Except.ok f) := by
  refine ⟨fun hu _ => ?_, fun h1 hf => ?_⟩
  · unfold extract_source
    rw [hu]
  · unfold extract_source
    rw [h1, hf]

/-- Concrete runs of `claim_c10_url_precedence`: with both keys present the
    url wins; with only `file_path` present the file path is returned. -/
theorem claim_c10_url_precedence_witness :
    extract_source [("url", "u"), ("file_path", "p")] = Except.ok "u" ∧
    extract_source [("file_path", "p")] = Except.ok "p" :=
  ⟨(claim_c10_url_precedence [("url", "u"), ("file_path", "p")] "u" "p").1 rfl rfl,
   (claim_c10_url_precedence [("file_path", "p")] "u" "p").2 rfl rfl⟩

end LlmApp
